import Mathlib

/-!
Shallow embedding of `nova/ble_connect.py`, a BLE central-role session script
(scan → connect → discover services → read characteristics → subscribe →
listen → disconnect) built on an asynchronous platform BLE stack (bleak).

Platform calls are modelled by an environment `BleEnv` assigning each call an
outcome: a returned value, a raised ordinary error (Python `Exception`), or
delivery of an external cancellation (`asyncio.CancelledError`, which since
Python 3.8 is *not* an `Exception` and therefore passes through
`except Exception` handlers but is caught by a bare `except:`).  The script is
interpreted as a function from the environment to the ordered trace of
platform calls and presentation events it produces, together with the
exception (if any) escaping `main()` and the script's termination status.
-/

namespace Nova

/-- One advertisement's device data as seen by the scan loop: optional
advertised name, address, and optional signal strength (the script never
consults the signal strength). -/
structure Device where
  name : Option String
  address : String
  rssi : Option Int
  deriving DecidableEq

/-- One GATT characteristic descriptor: UUID and the platform's capability
strings (`char.properties`, e.g. "read", "write", "notify"). -/
structure Characteristic where
  uuid : String
  properties : List String
  deriving DecidableEq

/-- One GATT service descriptor: UUID and its ordered characteristics. -/
structure GattService where
  uuid : String
  characteristics : List Characteristic
  deriving DecidableEq

/-- `DATA_CHAR` from the script (Read, Write, Notify). -/
def DATA_CHAR : String := "2b35ef1f-11a6-4089-8cd5-843c5d0c9c55"

/-- `COMMAND_CHAR` from the script (Write; unused by the session flow). -/
def COMMAND_CHAR : String := "3e25a3bf-bfe1-4c71-97c5-5bdb73fac89e"

/-- `STATUS_CHAR` from the script (Read, Notify). -/
def STATUS_CHAR : String := "964fbffe-6940-4371-8d48-fe43b07ed00b"

/-- `BATTERY_CHAR` from the script (standard Battery Level). -/
def BATTERY_CHAR : String := "00002a19-0000-1000-8000-00805f9b34fb"

/-- Does the character list `ns` occur at the head of `hs`? -/
def charsPrefixAt : List Char → List Char → Bool
  | [], _ => true
  | _ :: _, [] => false
  | n :: ns, h :: hs => n == h && charsPrefixAt ns hs

/-- Does `ns` occur as a contiguous sublist of `hs`? -/
def charsSub : List Char → List Char → Bool
  | ns, [] => ns.isEmpty
  | ns, h :: hs => charsPrefixAt ns (h :: hs) || charsSub ns hs

/-- Python's substring test: the expression `needle in hay` on strings. -/
def pyIn (needle hay : String) : Bool :=
  charsSub needle.toList hay.toList

/-- The scan loop's filter, from `if d.name and "Lumenate" in d.name:` with
the literal generalized to a parameter: Python truthiness requires the
advertised name to be present *and non-empty*, and the filter must occur in
it as a case-sensitive substring. -/
def matchesName (filt : String) (d : Device) : Bool :=
  match d.name with
  | some n => !n.isEmpty && pyIn filt n
  | none => false

/-- The scan loop over the discovered batch: the first device matching the
filter (the loop `break`s at the first hit). -/
def scanFind (filt : String) (devices : List Device) : Option Device :=
  devices.find? (matchesName filt)

/-- The script's scan loop with its concrete literal filter "Lumenate". -/
def findDevice (devices : List Device) : Option Device :=
  scanFind "Lumenate" devices

/-- The script's service-label lookup (`svc_name`), resolved by substring
tests against the lower-cased service UUID, defaulting to "Unknown". -/
def svcLabel (uuid : String) : String :=
  if pyIn "180f" uuid.toLower then "Battery Service"
  else if pyIn "47bbfb1e" uuid.toLower then "Control Service"
  else if pyIn "b568de7c" uuid.toLower then "McuMgr DFU"
  else if pyIn "1800" uuid.toLower then "Generic Access"
  else if pyIn "1801" uuid.toLower then "Generic Attribute"
  else "Unknown"

/-- An exception escaping an awaited platform call: either delivery of an
external cancellation (`asyncio.CancelledError`) or an ordinary error
(a Python `Exception` with a message). -/
inductive Exn
  | cancelled
  | error (msg : String)
  deriving DecidableEq

/-- Outcome of one awaited platform call. -/
inductive Res (α : Type)
  | ok (a : α)
  | exn (e : Exn)
  deriving DecidableEq

/-- Whether the outcome is delivery of an external cancellation. -/
def Res.isCancelled {α : Type} : Res α → Bool
  | .exn .cancelled => true
  | _ => false

/-- How one guarded characteristic read records its outcome: the returned
bytes or the caught error's message. -/
inductive ReadOut
  | bytes (v : List Nat)
  | failure (msg : String)
  deriving DecidableEq

/-- Trace entries: platform calls issued and presentation events emitted by
the script, in program order. -/
inductive Ev
  | scanCall
  | foundEv (name address : String)
  | connectCall (address : String)
  | readCall (uuid : String)
  | readResultEv (uuid : String) (r : ReadOut)
  | batteryEv (pct : Nat)
  | subscribeCall (uuid : String)
  | subResultEv (uuid : String) (ok : Bool)
  | sleepCall
  | disconnectCall
  | failedConnectEv
  deriving DecidableEq

/-- The environment: the outcome the platform gives each call the script can
make.  Characteristic reads in the explore loop are indexed by the order in
which the script issues them. -/
structure BleEnv where
  scanRes : Res (List Device)
  connectRes : Res Bool
  servicesRes : Res (List GattService)
  readRes : Nat → Res (List Nat)
  batteryRes : Res (List Nat)
  dataSubRes : Res Unit
  statusSubRes : Res Unit
  sleepRes : Res Unit

/-- `"read" in char.properties`: list membership on capability strings. -/
def canRead (c : Characteristic) : Bool :=
  c.properties.contains "read"

/-- One guarded read in the explore loop
(`try: value = await client.read_gatt_char(char.uuid) except Exception as e`):
the call is issued, an ordinary error is caught and its reason recorded, and
a cancellation — not being an `Exception` — escapes the handler. -/
def readStep (r : Res (List Nat)) (uuid : String) : List Ev × Option Exn :=
  match r with
  | .ok v => ([.readCall uuid, .readResultEv uuid (.bytes v)], none)
  | .exn (.error m) => ([.readCall uuid, .readResultEv uuid (.failure m)], none)
  | .exn .cancelled => ([.readCall uuid], some .cancelled)

/-- The inner explore loop over one service's characteristics: each
read-capable characteristic gets one guarded read; others are skipped.
Returns the trace, the next read index, and any escaping exception. -/
def exploreChars (reads : Nat → Res (List Nat)) :
    Nat → List Characteristic → List Ev × Nat × Option Exn
  | k, [] => ([], k, none)
  | k, c :: cs =>
    if canRead c then
      match readStep (reads k) c.uuid with
      | (t, some e) => (t, k + 1, some e)
      | (t, none) =>
        match exploreChars reads (k + 1) cs with
        | (t2, k2, e2) => (t ++ t2, k2, e2)
    else
      exploreChars reads k cs

/-- The outer explore loop over the discovered services. -/
def exploreServices (reads : Nat → Res (List Nat)) :
    Nat → List GattService → List Ev × Nat × Option Exn
  | k, [] => ([], k, none)
  | k, s :: ss =>
    match exploreChars reads k s.characteristics with
    | (t, k1, some e) => (t, k1, some e)
    | (t, k1, none) =>
      match exploreServices reads k1 ss with
      | (t2, k2, e2) => (t ++ t2, k2, e2)

/-- The rendered percentage in `print(f"Battery: {battery[0]}%")`. -/
def batteryText (n : Nat) : String :=
  toString n ++ "%"

/-- The specialized battery-level step
(`try: battery = await client.read_gatt_char(BATTERY_CHAR); print(...[0]...)
except: pass`): the read call is always issued; on success with a non-empty
payload the first byte is emitted as the percentage; an empty payload's
`IndexError` and *every* exception — cancellation included, because the bare
`except:` catches `BaseException` — are silently swallowed.  This step never
raises. -/
def batteryStep (r : Res (List Nat)) : List Ev :=
  match r with
  | .ok (b :: _) => [.readCall BATTERY_CHAR, .batteryEv b]
  | .ok [] => [.readCall BATTERY_CHAR]
  | .exn _ => [.readCall BATTERY_CHAR]

/-- One guarded subscription attempt
(`try: await client.start_notify(...) except Exception as e`): an ordinary
error is caught and logged as a per-characteristic failure; a cancellation
escapes the `except Exception` handler. -/
def subStep (r : Res Unit) (uuid : String) : List Ev × Option Exn :=
  match r with
  | .ok _ => ([.subscribeCall uuid, .subResultEv uuid true], none)
  | .exn (.error _) => ([.subscribeCall uuid, .subResultEv uuid false], none)
  | .exn .cancelled => ([.subscribeCall uuid], some .cancelled)

/-- The listen window
(`try: await asyncio.sleep(30) except asyncio.CancelledError: pass`): a
cancellation is caught and execution falls through to teardown; any other
exception escapes. -/
def sleepStep (r : Res Unit) : List Ev × Option Exn :=
  match r with
  | .ok _ => ([.sleepCall], none)
  | .exn .cancelled => ([.sleepCall], none)
  | .exn (.error m) => ([.sleepCall], some (.error m))

/-- The body of `async with BleakClient(...) as client:`, which runs only
after the connect call inside `__aenter__` returned without raising.  On
`is_connected` the script explores the topology, does the specialized battery
read, attempts both subscriptions independently, and holds the listen window;
otherwise it reports the failed connection.  Any escaping exception is
propagated to the context manager. -/
def withBody (env : BleEnv) (connected : Bool) : List Ev × Option Exn :=
  match connected with
  | true =>
    match env.servicesRes with
    | .exn e => ([], some e)
    | .ok svcs =>
      match exploreServices env.readRes 0 svcs with
      | (t1, _, some e) => (t1, some e)
      | (t1, _, none) =>
        let t2 := batteryStep env.batteryRes
        match subStep env.dataSubRes DATA_CHAR with
        | (t3, some e) => (t1 ++ t2 ++ t3, some e)
        | (t3, none) =>
          match subStep env.statusSubRes STATUS_CHAR with
          | (t4, some e) => (t1 ++ t2 ++ t3 ++ t4, some e)
          | (t4, none) =>
            match sleepStep env.sleepRes with
            | (t5, e5) => (t1 ++ t2 ++ t3 ++ t4 ++ t5, e5)
  | false =>
    ([.failedConnectEv], none)

/-- `main()`: scan; return early when nothing matches; otherwise connect via
the async context manager.  When the connect call raises, the body never
runs and `__aexit__` is *not* invoked (no disconnect); when it returns, the
body runs and `__aexit__`'s disconnect is issued exactly once on every exit,
normal or exceptional. -/
def mainF (env : BleEnv) : List Ev × Option Exn :=
  match env.scanRes with
  | .exn e => ([.scanCall], some e)
  | .ok devices =>
    match findDevice devices with
    | none => ([.scanCall], none)
    | some d =>
      match env.connectRes with
      | .exn e =>
        ([.scanCall, .foundEv (d.name.getD "") d.address, .connectCall d.address], some e)
      | .ok connected =>
        match withBody env connected with
        | (t, e) =>
          ([.scanCall, .foundEv (d.name.getD "") d.address, .connectCall d.address]
            ++ t ++ [.disconnectCall], e)

/-- The script's termination status: clean exit, or an unhandled fault
carrying the escaped error's message. -/
inductive TermStatus
  | clean
  | fault (msg : String)
  deriving DecidableEq

/-- `asyncio.run(main())` wrapped in `try: ... except KeyboardInterrupt:`:
a propagating cancellation surfaces together with the `KeyboardInterrupt`
that triggered it and is caught at top level (clean exit); any other
exception escapes as an unhandled fault. -/
def runScript (env : BleEnv) : List Ev × TermStatus :=
  match mainF env with
  | (t, none) => (t, .clean)
  | (t, some .cancelled) => (t, .clean)
  | (t, some (.error m)) => (t, .fault m)

/-- Modelled from the spec: the platform scan primitive
(`BleakScanner.discover(timeout=...)`, part of the platform BLE stack, not of
this repository) collects every advertisement arriving no later than
`timeout` and returns the whole batch at time `timeout` (spec §4.1 strategy
(a): poll a batch of discovered advertisements once, filtering afterward,
with a bounded wait and a guaranteed stop). -/
def discover (timeout : Nat) (ads : List (Nat × Device)) : List Device × Nat :=
  ((ads.filter (fun a => a.1 ≤ timeout)).map (fun a => a.2), timeout)

/-- The script's scan phase over a timed advertisement stream: one `discover`
call followed by the pure filter loop; the second component is the completion
time of the phase. -/
def scanTimed (filt : String) (timeout : Nat) (ads : List (Nat × Device)) :
    Option Device × Nat :=
  match discover timeout ads with
  | (devs, t) => (scanFind filt devs, t)

/-- All characteristics of a topology in discovery order. -/
def flatChars (svcs : List GattService) : List Characteristic :=
  svcs.flatMap (fun s => s.characteristics)

/-- The read-capable characteristics of a topology in discovery order. -/
def readableOf (svcs : List GattService) : List Characteristic :=
  (flatChars svcs).filter canRead

/-- No call of the explore loop's read sequence is an external cancellation. -/
def noCancel (reads : Nat → Res (List Nat)) : Prop :=
  ∀ i, (reads i).isCancelled = false

/-- Events that the explore loop can emit. -/
def isReadEv : Ev → Bool
  | .readCall _ => true
  | .readResultEv _ _ => true
  | _ => false

/-- Extracts the uuid of an issued read call. -/
def readCallUuid : Ev → Option String
  | .readCall u => some u
  | _ => none

/-- Extracts the uuid of a recorded read result. -/
def readResUuid : Ev → Option String
  | .readResultEv u _ => some u
  | _ => none

/-- The trace the explore loop produces when no cancellation interrupts it:
one guarded read per read-capable characteristic, in order. -/
def expTrace (reads : Nat → Res (List Nat)) : Nat → List Characteristic → List Ev
  | _, [] => []
  | k, c :: cs =>
    if canRead c then (readStep (reads k) c.uuid).1 ++ expTrace reads (k + 1) cs
    else expTrace reads k cs

lemma readStep_shape (r : Res (List Nat)) (u : String) (h : r.isCancelled = false) :
    ∃ o, readStep r u = ([.readCall u, .readResultEv u o], none) := by
  cases r with
  | ok v => exact ⟨.bytes v, rfl⟩
  | exn e =>
    cases e with
    | cancelled => simp [Res.isCancelled] at h
    | error m => exact ⟨.failure m, rfl⟩

lemma readStep_events {r : Res (List Nat)} {u : String} {e : Ev}
    (h : e ∈ (readStep r u).1) : isReadEv e = true := by
  cases r with
  | ok v => simp [readStep] at h; rcases h with rfl | rfl <;> rfl
  | exn ex =>
    cases ex with
    | cancelled => simp [readStep] at h; subst h; rfl
    | error m => simp [readStep] at h; rcases h with rfl | rfl <;> rfl

lemma exploreChars_noCancel {reads : Nat → Res (List Nat)} (hnc : noCancel reads) :
    ∀ (cs : List Characteristic) (k : Nat),
      exploreChars reads k cs = (expTrace reads k cs, k + (cs.filter canRead).length, none) := by
  intro cs
  induction cs with
  | nil => intro k; simp [exploreChars, expTrace]
  | cons c cs ih =>
    intro k
    by_cases hc : canRead c
    · obtain ⟨o, ho⟩ := readStep_shape (reads k) c.uuid (hnc k)
      simp [exploreChars, expTrace, hc, ho, ih (k + 1)]
      omega
    · simp [exploreChars, expTrace, hc, ih k]

lemma exploreChars_events {reads : Nat → Res (List Nat)} :
    ∀ (cs : List Characteristic) (k : Nat) (e : Ev),
      e ∈ (exploreChars reads k cs).1 → isReadEv e = true := by
  intro cs
  induction cs with
  | nil => intro k e h; simp [exploreChars] at h
  | cons c cs ih =>
    intro k e h
    by_cases hc : canRead c
    · rcases hr : readStep (reads k) c.uuid with ⟨t, oe⟩
      cases oe with
      | some ex =>
        simp [exploreChars, hc, hr] at h
        exact readStep_events (hr ▸ h : e ∈ (readStep (reads k) c.uuid).1)
      | none =>
        rcases h2 : exploreChars reads (k + 1) cs with ⟨t2, k2, e2⟩
        simp [exploreChars, hc, hr, h2] at h
        rcases h with h | h
        · exact readStep_events (hr ▸ h : e ∈ (readStep (reads k) c.uuid).1)
        · exact ih (k + 1) e (h2 ▸ h)
    · simp only [exploreChars, hc, if_neg, Bool.false_eq_true, ite_false] at h
      exact ih k e h

lemma exploreChars_append {reads : Nat → Res (List Nat)} :
    ∀ (xs ys : List Characteristic) (k : Nat),
      exploreChars reads k (xs ++ ys) =
        (match exploreChars reads k xs with
         | (t, k1, some e) => (t, k1, some e)
         | (t, k1, none) =>
           match exploreChars reads k1 ys with
           | (t2, k2, e2) => (t ++ t2, k2, e2)) := by
  intro xs
  induction xs with
  | nil =>
    intro ys k
    rcases h : exploreChars reads k ys with ⟨t2, k2, e2⟩
    simp [exploreChars, h]
  | cons c cs ih =>
    intro ys k
    by_cases hc : canRead c
    · rcases hr : readStep (reads k) c.uuid with ⟨t, oe⟩
      cases oe with
      | some ex => simp [exploreChars, hc, hr]
      | none =>
        rcases h2 : exploreChars reads (k + 1) cs with ⟨t2, k2, e2⟩
        cases e2 with
        | some ex2 => simp [exploreChars, hc, hr, h2, ih]
        | none =>
          rcases h3 : exploreChars reads k2 ys with ⟨t3, k3, e3⟩
          simp [exploreChars, hc, hr, ih, h2, h3]
    · simp [exploreChars, hc, ih]

lemma exploreServices_eq {reads : Nat → Res (List Nat)} :
    ∀ (svcs : List GattService) (k : Nat),
      exploreServices reads k svcs = exploreChars reads k (flatChars svcs) := by
  intro svcs
  induction svcs with
  | nil => intro k; simp [exploreServices, exploreChars, flatChars]
  | cons s ss ih =>
    intro k
    have hf : flatChars (s :: ss) = s.characteristics ++ flatChars ss := by
      simp [flatChars]
    rw [hf, exploreChars_append]
    rcases h1 : exploreChars reads k s.characteristics with ⟨t, k1, oe⟩
    cases oe with
    | some e => simp [exploreServices, h1]
    | none =>
      rcases h2 : exploreChars reads k1 (flatChars ss) with ⟨t2, k2, e2⟩
      simp [exploreServices, h1, ih, h2]

lemma exploreChars_cancelAt {reads : Nat → Res (List Nat)} :
    ∀ (cs : List Characteristic) (k j : Nat),
      (∀ i, i < j → (reads (k + i)).isCancelled = false) →
      (reads (k + j)).isCancelled = true →
      j < (cs.filter canRead).length →
      (exploreChars reads k cs).2.2 = some .cancelled := by
  intro cs
  induction cs with
  | nil => intro k j _ _ hj; simp at hj
  | cons c cs ih =>
    intro k j hlt hc hj
    by_cases hrd : canRead c
    · cases j with
      | zero =>
        have hk : (reads k).isCancelled = true := by simpa using hc
        have : readStep (reads k) c.uuid = ([.readCall c.uuid], some .cancelled) := by
          rcases hr : reads k with _ | e
          · simp [hr, Res.isCancelled] at hk
          · cases e with
            | cancelled => rfl
            | error m => simp [hr, Res.isCancelled] at hk
        simp [exploreChars, hrd, this]
      | succ j =>
        have h0 : (reads k).isCancelled = false := by simpa using hlt 0 (Nat.succ_pos j)
        obtain ⟨o, ho⟩ := readStep_shape (reads k) c.uuid h0
        have hlt2 : ∀ i, i < j → (reads (k + 1 + i)).isCancelled = false := by
          intro i hi
          have := hlt (i + 1) (by omega)
          simpa [Nat.add_assoc, Nat.add_comm 1 i] using this
        have hc2 : (reads (k + 1 + j)).isCancelled = true := by
          have : k + 1 + j = k + (j + 1) := by omega
          rw [this]; exact hc
        have hj2 : j < (cs.filter canRead).length := by
          simp [hrd] at hj; omega
        rcases h2 : exploreChars reads (k + 1) cs with ⟨t2, k2, e2⟩
        have := ih (k + 1) j hlt2 hc2 hj2
        rw [h2] at this
        simp [exploreChars, hrd, ho, h2]
        simpa using this
    · have hj2 : j < (cs.filter canRead).length := by simpa [hrd] using hj
      simp only [exploreChars, hrd, Bool.false_eq_true, ite_false]
      exact ih k j hlt hc hj2

lemma expTrace_filterMap_call {reads : Nat → Res (List Nat)} (hnc : noCancel reads) :
    ∀ (cs : List Characteristic) (k : Nat),
      (expTrace reads k cs).filterMap readCallUuid
        = (cs.filter canRead).map (fun c => c.uuid) := by
  intro cs
  induction cs with
  | nil => intro k; simp [expTrace]
  | cons c cs ih =>
    intro k
    by_cases hc : canRead c
    · obtain ⟨o, ho⟩ := readStep_shape (reads k) c.uuid (hnc k)
      simp [expTrace, hc, ho, ih (k + 1), readCallUuid]
    · simp [expTrace, hc, ih k]

lemma expTrace_filterMap_res {reads : Nat → Res (List Nat)} (hnc : noCancel reads) :
    ∀ (cs : List Characteristic) (k : Nat),
      (expTrace reads k cs).filterMap readResUuid
        = (cs.filter canRead).map (fun c => c.uuid) := by
  intro cs
  induction cs with
  | nil => intro k; simp [expTrace]
  | cons c cs ih =>
    intro k
    by_cases hc : canRead c
    · obtain ⟨o, ho⟩ := readStep_shape (reads k) c.uuid (hnc k)
      simp [expTrace, hc, ho, ih (k + 1), readResUuid]
    · simp [expTrace, hc, ih k]

lemma expTrace_count_read {reads : Nat → Res (List Nat)} (hnc : noCancel reads) (u : String) :
    ∀ (cs : List Characteristic) (k : Nat),
      (expTrace reads k cs).count (Ev.readCall u)
        = ((cs.filter canRead).map (fun c => c.uuid)).count u := by
  intro cs
  induction cs with
  | nil => intro k; simp [expTrace]
  | cons c cs ih =>
    intro k
    by_cases hc : canRead c
    · obtain ⟨o, ho⟩ := readStep_shape (reads k) c.uuid (hnc k)
      simp [expTrace, hc, ho, ih (k + 1), List.count_cons]
    · simp [expTrace, hc, ih k]

lemma subStep_snd (r : Res Unit) (u : String) (h : r.isCancelled = false) :
    (subStep r u).2 = none := by
  cases r with
  | ok a => rfl
  | exn e =>
    cases e with
    | cancelled => simp [Res.isCancelled] at h
    | error m => rfl

lemma subStep_head (r : Res Unit) (u : String) : Ev.subscribeCall u ∈ (subStep r u).1 := by
  cases r with
  | ok a => simp [subStep]
  | exn e => cases e <;> simp [subStep]

lemma subStep_mem_cases {r : Res Unit} {u : String} {e : Ev} (h : e ∈ (subStep r u).1) :
    e = Ev.subscribeCall u ∨ ∃ b, e = Ev.subResultEv u b := by
  cases r with
  | ok a =>
    simp [subStep] at h
    rcases h with rfl | rfl
    · exact Or.inl rfl
    · exact Or.inr ⟨true, rfl⟩
  | exn ex =>
    cases ex with
    | cancelled => simp [subStep] at h; exact Or.inl h
    | error m =>
      simp [subStep] at h
      rcases h with rfl | rfl
      · exact Or.inl rfl
      · exact Or.inr ⟨false, rfl⟩

lemma subStep_cancel (u : String) :
    subStep (.exn .cancelled) u = ([Ev.subscribeCall u], some .cancelled) := rfl

lemma sleepStep_fst (r : Res Unit) : (sleepStep r).1 = [Ev.sleepCall] := by
  cases r with
  | ok a => rfl
  | exn e => cases e <;> rfl

lemma batteryStep_mem_cases {r : Res (List Nat)} {e : Ev} (h : e ∈ batteryStep r) :
    e = Ev.readCall BATTERY_CHAR ∨ ∃ n, e = Ev.batteryEv n := by
  cases r with
  | ok v =>
    cases v with
    | nil => simp [batteryStep] at h; exact Or.inl h
    | cons b bs =>
      simp [batteryStep] at h
      rcases h with rfl | rfl
      · exact Or.inl rfl
      · exact Or.inr ⟨b, rfl⟩
  | exn ex => simp [batteryStep] at h; exact Or.inl h

lemma batteryStep_count (r : Res (List Nat)) :
    (batteryStep r).count (Ev.readCall BATTERY_CHAR) = 1 := by
  cases r with
  | ok v => cases v <;> simp [batteryStep, List.count_cons]
  | exn ex => simp [batteryStep]

lemma expTrace_events {reads : Nat → Res (List Nat)} :
    ∀ (cs : List Characteristic) (k : Nat) (e : Ev),
      e ∈ expTrace reads k cs → isReadEv e = true := by
  intro cs
  induction cs with
  | nil => intro k e h; simp [expTrace] at h
  | cons c cs ih =>
    intro k e h
    by_cases hc : canRead c
    · simp [expTrace, hc] at h
      rcases h with h | h
      · exact readStep_events h
      · exact ih (k + 1) e h
    · simp [expTrace, hc] at h
      exact ih k e h

lemma withBody_false (env : BleEnv) : withBody env false = ([.failedConnectEv], none) := by
  simp [withBody]

lemma withBody_services_exn {env : BleEnv} {e : Exn} (h : env.servicesRes = .exn e) :
    withBody env true = ([], some e) := by
  simp [withBody, h]

lemma withBody_shape {env : BleEnv} {svcs : List GattService}
    (hs : env.servicesRes = .ok svcs) (hnc : noCancel env.readRes)
    (h1 : env.dataSubRes.isCancelled = false) (h2 : env.statusSubRes.isCancelled = false) :
    withBody env true =
      (expTrace env.readRes 0 (flatChars svcs) ++ batteryStep env.batteryRes
        ++ (subStep env.dataSubRes DATA_CHAR).1 ++ (subStep env.statusSubRes STATUS_CHAR).1
        ++ (sleepStep env.sleepRes).1,
       (sleepStep env.sleepRes).2) := by
  rcases h3 : subStep env.dataSubRes DATA_CHAR with ⟨t3, oe3⟩
  have e3 : oe3 = none := by
    have := subStep_snd env.dataSubRes DATA_CHAR h1
    rw [h3] at this; exact this
  subst e3
  rcases h4 : subStep env.statusSubRes STATUS_CHAR with ⟨t4, oe4⟩
  have e4 : oe4 = none := by
    have := subStep_snd env.statusSubRes STATUS_CHAR h2
    rw [h4] at this; exact this
  subst e4
  rcases h5 : sleepStep env.sleepRes with ⟨t5, e5⟩
  simp [withBody, hs, exploreServices_eq, exploreChars_noCancel hnc, h3, h4, h5]

lemma withBody_dataSub_cancel {env : BleEnv} {svcs : List GattService}
    (hs : env.servicesRes = .ok svcs) (hnc : noCancel env.readRes)
    (hd : env.dataSubRes = .exn .cancelled) :
    withBody env true =
      (expTrace env.readRes 0 (flatChars svcs) ++ batteryStep env.batteryRes
        ++ [Ev.subscribeCall DATA_CHAR], some .cancelled) := by
  simp [withBody, hs, exploreServices_eq, exploreChars_noCancel hnc, hd, subStep_cancel]

lemma withBody_statusSub_cancel {env : BleEnv} {svcs : List GattService}
    (hs : env.servicesRes = .ok svcs) (hnc : noCancel env.readRes)
    (h1 : env.dataSubRes.isCancelled = false)
    (hd : env.statusSubRes = .exn .cancelled) :
    withBody env true =
      (expTrace env.readRes 0 (flatChars svcs) ++ batteryStep env.batteryRes
        ++ (subStep env.dataSubRes DATA_CHAR).1 ++ [Ev.subscribeCall STATUS_CHAR],
       some .cancelled) := by
  rcases h3 : subStep env.dataSubRes DATA_CHAR with ⟨t3, oe3⟩
  have e3 : oe3 = none := by
    have := subStep_snd env.dataSubRes DATA_CHAR h1
    rw [h3] at this; exact this
  subst e3
  simp [withBody, hs, exploreServices_eq, exploreChars_noCancel hnc, h3, hd, subStep_cancel]

lemma withBody_explore_cancel {env : BleEnv} {svcs : List GattService}
    (hs : env.servicesRes = .ok svcs)
    (hcn : (exploreServices env.readRes 0 svcs).2.2 = some .cancelled) :
    withBody env true = ((exploreServices env.readRes 0 svcs).1, some .cancelled) := by
  rcases h1 : exploreServices env.readRes 0 svcs with ⟨t1, k1, oe⟩
  rw [h1] at hcn
  simp at hcn
  subst hcn
  simp [withBody, hs, h1]

lemma mainF_scan_exn {env : BleEnv} {e : Exn} (h : env.scanRes = .exn e) :
    mainF env = ([.scanCall], some e) := by
  simp [mainF, h]

lemma mainF_notFound {env : BleEnv} {devs : List Device}
    (h : env.scanRes = .ok devs) (hf : findDevice devs = none) :
    mainF env = ([.scanCall], none) := by
  simp [mainF, h, hf]

lemma mainF_connect_exn {env : BleEnv} {devs : List Device} {d : Device} {e : Exn}
    (h : env.scanRes = .ok devs) (hf : findDevice devs = some d)
    (hc : env.connectRes = .exn e) :
    mainF env
      = ([.scanCall, .foundEv (d.name.getD "") d.address, .connectCall d.address], some e) := by
  simp [mainF, h, hf, hc]

lemma mainF_shape {env : BleEnv} {devs : List Device} {d : Device} {b : Bool}
    (h : env.scanRes = .ok devs) (hf : findDevice devs = some d)
    (hc : env.connectRes = .ok b) :
    mainF env
      = ([Ev.scanCall, .foundEv (d.name.getD "") d.address, .connectCall d.address]
          ++ (withBody env b).1 ++ [Ev.disconnectCall],
         (withBody env b).2) := by
  rcases hw : withBody env b with ⟨t, e⟩
  simp [mainF, h, hf, hc, hw]

lemma runScript_fst (env : BleEnv) : (runScript env).1 = (mainF env).1 := by
  rcases h : mainF env with ⟨t, oe⟩
  cases oe with
  | none => simp [runScript, h]
  | some e => cases e <;> simp [runScript, h]

lemma runScript_snd_of_none {env : BleEnv} (h : (mainF env).2 = none) :
    (runScript env).2 = .clean := by
  rcases hm : mainF env with ⟨t, oe⟩
  rw [hm] at h
  obtain rfl : oe = none := h
  simp [runScript, hm]

lemma runScript_snd_of_cancel {env : BleEnv} (h : (mainF env).2 = some .cancelled) :
    (runScript env).2 = .clean := by
  rcases hm : mainF env with ⟨t, oe⟩
  rw [hm] at h
  obtain rfl : oe = some .cancelled := h
  simp [runScript, hm]

lemma runScript_snd_of_error {env : BleEnv} {m : String}
    (h : (mainF env).2 = some (.error m)) :
    (runScript env).2 = .fault m := by
  rcases hm : mainF env with ⟨t, oe⟩
  rw [hm] at h
  obtain rfl : oe = some (.error m) := h
  simp [runScript, hm]

lemma exploreChars_not_mem {reads : Nat → Res (List Nat)} {cs : List Characteristic}
    {k : Nat} {e : Ev} (hne : isReadEv e = false) : e ∉ (exploreChars reads k cs).1 := by
  intro h
  rw [exploreChars_events cs k e h] at hne
  cases hne

lemma expTrace_not_mem {reads : Nat → Res (List Nat)} {cs : List Characteristic}
    {k : Nat} {e : Ev} (hne : isReadEv e = false) : e ∉ expTrace reads k cs := by
  intro h
  rw [expTrace_events cs k e h] at hne
  cases hne

lemma batteryStep_not_sleep (r : Res (List Nat)) : Ev.sleepCall ∉ batteryStep r := by
  intro h
  rcases batteryStep_mem_cases h with h | ⟨n, h⟩ <;> simp at h

lemma batteryStep_not_disc (r : Res (List Nat)) : Ev.disconnectCall ∉ batteryStep r := by
  intro h
  rcases batteryStep_mem_cases h with h | ⟨n, h⟩ <;> simp at h

lemma subStep_not_sleep (r : Res Unit) (u : String) : Ev.sleepCall ∉ (subStep r u).1 := by
  intro h
  rcases subStep_mem_cases h with h | ⟨b, h⟩ <;> simp at h

lemma subStep_not_disc (r : Res Unit) (u : String) : Ev.disconnectCall ∉ (subStep r u).1 := by
  intro h
  rcases subStep_mem_cases h with h | ⟨b, h⟩ <;> simp at h

/-- No path through the `async with` body ever issues a disconnect itself:
the disconnect belongs to `__aexit__` alone. -/
lemma withBody_not_disc (env : BleEnv) (b : Bool) :
    Ev.disconnectCall ∉ (withBody env b).1 := by
  cases b with
  | false => rw [withBody_false]; simp
  | true =>
    cases hsv : env.servicesRes with
    | exn e => rw [withBody_services_exn hsv]; simp
    | ok svcs =>
      rcases h1 : exploreServices env.readRes 0 svcs with ⟨t1, k1, oe1⟩
      have ht1 : Ev.disconnectCall ∉ t1 := by
        have heq := @exploreServices_eq env.readRes svcs 0
        rw [h1] at heq
        have : t1 = (exploreChars env.readRes 0 (flatChars svcs)).1 := by
          rw [← heq]
        rw [this]
        exact exploreChars_not_mem rfl
      cases oe1 with
      | some e =>
        simp only [withBody, hsv, h1]
        simpa using ht1
      | none =>
        rcases h3 : subStep env.dataSubRes DATA_CHAR with ⟨t3, oe3⟩
        cases oe3 with
        | some e =>
          simp only [withBody, hsv, h1, h3]
          simp only [List.mem_append, not_or]
          exact ⟨⟨ht1, batteryStep_not_disc _⟩, by
            have := subStep_not_disc env.dataSubRes DATA_CHAR
            rw [h3] at this; exact this⟩
        | none =>
          rcases h4 : subStep env.statusSubRes STATUS_CHAR with ⟨t4, oe4⟩
          have ht3 : Ev.disconnectCall ∉ t3 := by
            have := subStep_not_disc env.dataSubRes DATA_CHAR
            rw [h3] at this; exact this
          have ht4 : Ev.disconnectCall ∉ t4 := by
            have := subStep_not_disc env.statusSubRes STATUS_CHAR
            rw [h4] at this; exact this
          cases oe4 with
          | some e =>
            simp only [withBody, hsv, h1, h3, h4]
            simp only [List.mem_append, not_or]
            exact ⟨⟨⟨ht1, batteryStep_not_disc _⟩, ht3⟩, ht4⟩
          | none =>
            rcases h5 : sleepStep env.sleepRes with ⟨t5, e5⟩
            have ht5 : Ev.disconnectCall ∉ t5 := by
              have := sleepStep_fst env.sleepRes
              rw [h5] at this
              obtain rfl : t5 = [Ev.sleepCall] := this
              simp
            simp only [withBody, hsv, h1, h3, h4, h5]
            simp only [List.mem_append, not_or]
            exact ⟨⟨⟨⟨ht1, batteryStep_not_disc _⟩, ht3⟩, ht4⟩, ht5⟩

lemma subStep_count_read (r : Res Unit) (u v : String) :
    (subStep r u).1.count (Ev.readCall v) = 0 := by
  apply List.count_eq_zero.mpr
  intro h
  rcases subStep_mem_cases h with h | ⟨b, h⟩ <;> simp at h

/-- Whenever the connect call returns (so the `async with` body runs), the
whole run contains exactly one disconnect call, and it is the last event. -/
lemma runScript_disc_once {env : BleEnv} {devs : List Device} {d : Device} {b : Bool}
    (hscan : env.scanRes = .ok devs) (hfind : findDevice devs = some d)
    (hconn : env.connectRes = .ok b) :
    (runScript env).1.count Ev.disconnectCall = 1 ∧
      (runScript env).1.getLast? = some Ev.disconnectCall := by
  rw [runScript_fst, mainF_shape hscan hfind hconn]
  constructor
  · have hb : (withBody env b).1.count Ev.disconnectCall = 0 :=
      List.count_eq_zero.mpr (withBody_not_disc env b)
    simp [List.count_append, List.count_cons, hb]
  · dsimp only
    rw [List.getLast?_concat]

/-! ## Concrete data for witnesses and counterexamples -/

/-- The Lumenate Nova device of the spec's scan scenario. -/
def novaDev : Device := ⟨some "Lumenate Nova", "AA:BB", none⟩

/-- The non-matching device of the spec's scan scenario. -/
def otherDev : Device := ⟨some "Other", "CC:DD", none⟩

/-- A topology exposing the read-capable battery characteristic once plus a
write-only characteristic. -/
def nominalSvcs : List GattService :=
  [⟨"svc", [⟨BATTERY_CHAR, ["read", "notify"]⟩, ⟨COMMAND_CHAR, ["write"]⟩]⟩]

/-- A nominal environment: device found, connect succeeds, every later call
succeeds. -/
def envNominal : BleEnv :=
  ⟨.ok [novaDev], .ok true, .ok nominalSvcs, fun _ => .ok [78], .ok [78],
   .ok (), .ok (), .ok ()⟩

/-! ## Claims -/

/-- C1: on every execution path on which the connect call returns — so the
session body runs, covering listen-window expiry, cancellation while
connected, discovery failure, an unexpected error in any connected state,
and unexpected link loss — the script issues exactly one disconnect call,
and it is the final event of the trace (terminal `Disconnected`). -/
theorem c1_disconnect_once {env : BleEnv} {devs : List Device} {d : Device} {b : Bool}
    (hscan : env.scanRes = .ok devs) (hfind : findDevice devs = some d)
    (hconn : env.connectRes = .ok b) :
    (runScript env).1.count Ev.disconnectCall = 1 ∧
      (runScript env).1.getLast? = some Ev.disconnectCall :=
  runScript_disc_once hscan hfind hconn

/-- C1 witness: the guarantee at a concrete nominal environment. -/
theorem c1_disconnect_once_witness :
    (runScript envNominal).1.count Ev.disconnectCall = 1 ∧
      (runScript envNominal).1.getLast? = some Ev.disconnectCall :=
  @c1_disconnect_once envNominal [novaDev] novaDev true rfl (by decide) rfl

/-- The advertisement the original C2 claim fails on: an advertised name that
is present but empty.  Python's truthiness test `if d.name and ...` rejects
the device even when the filter occurs in its name as a substring. -/
def emptyNameDev : Device := ⟨some "", "EE:FF", none⟩

/-- C2 counterexample: for the empty filter, the earliest (and only)
advertisement carries a name containing the filter as a case-sensitive
substring, yet the scanner returns no device instead of that one. -/
theorem c2_counterexample :
    pyIn "" "" = true ∧ emptyNameDev.name = some "" ∧
      scanFind "" [emptyNameDev] = none := by decide

/-- C2 amended: the Scanner returns the device of the earliest advertisement
whose advertised name is present, *non-empty*, and contains the filter as a
case-sensitive substring; signal strength is ignored; in particular the
spec's scenario (filter "Lumenate", stream Other then Lumenate Nova) returns
the Lumenate Nova device. -/
theorem c2_first_match :
    (∀ (filt : String) (pre : List Device) (d : Device) (post : List Device),
        (∀ x ∈ pre, matchesName filt x = false) → matchesName filt d = true →
        scanFind filt (pre ++ d :: post) = some d) ∧
    (∀ (filt : String) (n : Option String) (a : String) (r1 r2 : Option Int),
        matchesName filt ⟨n, a, r1⟩ = matchesName filt ⟨n, a, r2⟩) ∧
    scanFind "Lumenate" [otherDev, novaDev] = some novaDev := by
  refine ⟨?_, fun filt n a r1 r2 => rfl, by decide⟩
  intro filt pre d post hpre hd
  induction pre with
  | nil => simp [scanFind, List.find?, hd]
  | cons x xs ih =>
    have hx : matchesName filt x = false := hpre x (by simp)
    have hres : scanFind filt (xs ++ d :: post) = some d :=
      ih (fun y hy => hpre y (by simp [hy]))
    simpa [scanFind, List.find?, hx] using hres

/-- C2 witness: the first-match property applied to the spec's scenario. -/
theorem c2_first_match_witness :
    scanFind "Lumenate" ([otherDev] ++ novaDev :: []) = some novaDev :=
  c2_first_match.1 "Lumenate" [otherDev] novaDev [] (by decide) (by decide)

/-- Environment in which the platform connect call raises (e.g. a timeout). -/
def envConnectRaise : BleEnv :=
  ⟨.ok [novaDev], .exn (.error "connect timeout"), .ok [], fun _ => .ok [],
   .ok [], .ok (), .ok (), .ok ()⟩

/-- C3 counterexample: when the connect call raises, the script terminates as
an unhandled fault — the exception escapes `main()` and `asyncio.run` with no
reported event — and no disconnect call is issued, contradicting "surfaced
only as a reported ConnectFailed event, never escalated". -/
theorem c3_counterexample :
    (runScript envConnectRaise).2 = .fault "connect timeout" ∧
      (runScript envConnectRaise).1.count Ev.disconnectCall = 0 := by decide

/-- C3 amended: a connect call that raises propagates as an unhandled fault
carrying that error, with no disconnect call; a non-exceptional failure to
connect (`is_connected` false) is reported as a failed-connection event and
the session still tears down with exactly one disconnect and a clean exit. -/
theorem c3_connect_failure {env : BleEnv} {devs : List Device} {d : Device}
    (hscan : env.scanRes = .ok devs) (hfind : findDevice devs = some d) :
    (∀ m, env.connectRes = .exn (.error m) →
        (runScript env).2 = .fault m ∧
          (runScript env).1.count Ev.disconnectCall = 0) ∧
    (env.connectRes = .ok false →
        (runScript env).2 = .clean ∧ Ev.failedConnectEv ∈ (runScript env).1 ∧
          (runScript env).1.count Ev.disconnectCall = 1) := by
  constructor
  · intro m hc
    have hm := mainF_connect_exn hscan hfind hc
    refine ⟨runScript_snd_of_error (by rw [hm]), ?_⟩
    rw [runScript_fst, hm]
    simp [List.count_cons]
  · intro hc
    have hm := mainF_shape hscan hfind hc
    rw [withBody_false] at hm
    refine ⟨runScript_snd_of_none (by rw [hm]), ?_, ?_⟩
    · rw [runScript_fst, hm]; simp
    · rw [runScript_fst, hm]; simp [List.count_append, List.count_cons]

/-- Environment where the platform reports a non-exceptional connect
failure. -/
def envConnectFalse : BleEnv :=
  ⟨.ok [novaDev], .ok false, .ok [], fun _ => .ok [], .ok [],
   .ok (), .ok (), .ok ()⟩

/-- C3 witness: the `is_connected`-false half at a concrete environment. -/
theorem c3_connect_failure_witness :
    (runScript envConnectFalse).2 = .clean ∧
      Ev.failedConnectEv ∈ (runScript envConnectFalse).1 ∧
      (runScript envConnectFalse).1.count Ev.disconnectCall = 1 :=
  (@c3_connect_failure envConnectFalse [novaDev] novaDev rfl (by decide)).2 rfl

/-- C4: with no external cancellation, the explore pass never aborts: it
issues exactly one read per read-capable characteristic in discovery order,
records one result (the bytes or a failure reason) for each of them, and
emits no read call and no result for characteristics lacking the read
capability — so one failing read never prevents the later ones. -/
theorem c4_explore_reads {reads : Nat → Res (List Nat)} (svcs : List GattService)
    (hnc : noCancel reads) :
    (exploreServices reads 0 svcs).2.2 = none ∧
    (exploreServices reads 0 svcs).1.filterMap readCallUuid
      = (readableOf svcs).map (fun c => c.uuid) ∧
    (exploreServices reads 0 svcs).1.filterMap readResUuid
      = (readableOf svcs).map (fun c => c.uuid) := by
  rw [exploreServices_eq, exploreChars_noCancel hnc]
  exact ⟨rfl, expTrace_filterMap_call hnc _ 0, expTrace_filterMap_res hnc _ 0⟩

/-- A topology with two read-capable characteristics and a write-only one. -/
def svcsTwoReadable : List GattService :=
  [⟨"svc", [⟨STATUS_CHAR, ["read", "notify"]⟩,
            ⟨DATA_CHAR, ["read", "write", "notify"]⟩,
            ⟨COMMAND_CHAR, ["write"]⟩]⟩]

/-- Read outcomes where the first issued read fails and later ones succeed. -/
def readsFirstFails : Nat → Res (List Nat) :=
  fun i => match i with
    | 0 => .exn (.error "read failed")
    | _ => .ok [1, 2]

/-- C4 witness: read isolation on a concrete topology where characteristic
A's read fails and characteristic B is listed after it. -/
theorem c4_explore_reads_witness :
    (exploreServices readsFirstFails 0 svcsTwoReadable).2.2 = none ∧
    (exploreServices readsFirstFails 0 svcsTwoReadable).1.filterMap readCallUuid
      = (readableOf svcsTwoReadable).map (fun c => c.uuid) ∧
    (exploreServices readsFirstFails 0 svcsTwoReadable).1.filterMap readResUuid
      = (readableOf svcsTwoReadable).map (fun c => c.uuid) :=
  c4_explore_reads svcsTwoReadable (fun i => by cases i <;> rfl)

/-- C5: the specialized battery read interprets the payload's first byte as
the integer percentage — byte 78 renders as "78%" — and when the read raises
(cancellation included), no battery event is emitted at all: the failure is
silently swallowed by the bare `except:`. -/
theorem c5_battery_leniency :
    (∀ (b : Nat) (rest : List Nat),
        batteryStep (.ok (b :: rest)) = [.readCall BATTERY_CHAR, .batteryEv b]) ∧
    batteryText 78 = "78%" ∧
    (∀ (e : Exn) (n : Nat), Ev.batteryEv n ∉ batteryStep (.exn e)) := by
  refine ⟨fun b rest => rfl, by decide, ?_⟩
  intro e n h
  simp [batteryStep] at h

lemma not_mem_append2 {α : Type} {a : α} {l1 l2 : List α}
    (h1 : a ∉ l1) (h2 : a ∉ l2) : a ∉ l1 ++ l2 :=
  fun h => (List.mem_append.mp h).elim h1 h2

lemma pre_not_sleep (n a ad : String) :
    Ev.sleepCall ∉ [Ev.scanCall, Ev.foundEv n a, Ev.connectCall ad] := by
  simp

lemma disc_not_sleep : Ev.sleepCall ∉ [Ev.disconnectCall] := by
  simp

/-- In a session whose explore pass, data subscribe, and status subscribe are
not interrupted by a cancellation, both subscribe calls are issued and the
listen window is entered, whatever each call's own outcome. -/
lemma runScript_listening {env : BleEnv} {devs : List Device} {d : Device}
    {svcs : List GattService}
    (hscan : env.scanRes = .ok devs) (hfind : findDevice devs = some d)
    (hconn : env.connectRes = .ok true) (hsvc : env.servicesRes = .ok svcs)
    (hnc : noCancel env.readRes)
    (h1 : env.dataSubRes.isCancelled = false)
    (h2 : env.statusSubRes.isCancelled = false) :
    Ev.subscribeCall DATA_CHAR ∈ (runScript env).1 ∧
      Ev.subscribeCall STATUS_CHAR ∈ (runScript env).1 ∧
      Ev.sleepCall ∈ (runScript env).1 := by
  have m1 : Ev.subscribeCall DATA_CHAR ∈ (subStep env.dataSubRes DATA_CHAR).1 :=
    subStep_head _ _
  have m2 : Ev.subscribeCall STATUS_CHAR ∈ (subStep env.statusSubRes STATUS_CHAR).1 :=
    subStep_head _ _
  have m3 : Ev.sleepCall ∈ (sleepStep env.sleepRes).1 := by
    rw [sleepStep_fst]; simp
  have hw := withBody_shape hsvc hnc h1 h2
  refine ⟨?_, ?_, ?_⟩ <;>
    rw [runScript_fst, mainF_shape hscan hfind hconn, hw] <;>
    dsimp only <;>
    simp only [List.mem_append] <;>
    tauto

/-- C6: subscription attempts are independent — whatever the
(non-cancellation) outcome of each `start_notify` call, both subscribe calls
are issued and the session still enters the listening window. -/
theorem c6_subscribe_indep {env : BleEnv} {devs : List Device} {d : Device}
    {svcs : List GattService}
    (hscan : env.scanRes = .ok devs) (hfind : findDevice devs = some d)
    (hconn : env.connectRes = .ok true) (hsvc : env.servicesRes = .ok svcs)
    (hnc : noCancel env.readRes)
    (h1 : env.dataSubRes.isCancelled = false)
    (h2 : env.statusSubRes.isCancelled = false) :
    Ev.subscribeCall DATA_CHAR ∈ (runScript env).1 ∧
      Ev.subscribeCall STATUS_CHAR ∈ (runScript env).1 ∧
      Ev.sleepCall ∈ (runScript env).1 :=
  runScript_listening hscan hfind hconn hsvc hnc h1 h2

/-- Environment where both subscription attempts fail with ordinary errors. -/
def envSubsFail : BleEnv :=
  ⟨.ok [novaDev], .ok true, .ok [], fun _ => .ok [], .ok [78],
   .exn (.error "data notify unsupported"),
   .exn (.error "status notify unsupported"), .ok ()⟩

/-- C6 witness: both subscriptions fail, yet both are attempted and the
session reaches the listen window. -/
theorem c6_subscribe_indep_witness :
    Ev.subscribeCall DATA_CHAR ∈ (runScript envSubsFail).1 ∧
      Ev.subscribeCall STATUS_CHAR ∈ (runScript envSubsFail).1 ∧
      Ev.sleepCall ∈ (runScript envSubsFail).1 :=
  @c6_subscribe_indep envSubsFail [novaDev] novaDev []
    rfl (by decide) rfl rfl (fun i => rfl) rfl rfl

/-- Environment in which the external cancellation is delivered exactly at
the battery-read suspension point. -/
def envCancelAtBattery : BleEnv :=
  ⟨.ok [novaDev], .ok true, .ok [⟨"svc", [⟨STATUS_CHAR, ["read", "notify"]⟩]⟩],
   fun _ => .ok [0], .exn .cancelled, .ok (), .ok (), .ok ()⟩

/-- C7 counterexample: a cancellation delivered during the battery-level read
(a read suspension point) is swallowed by the bare `except:` — the controller
does not proceed directly to disconnecting: it continues through both
subscriptions and the full listen window. -/
theorem c7_counterexample :
    envCancelAtBattery.batteryRes = .exn .cancelled ∧
      Ev.subscribeCall DATA_CHAR ∈ (runScript envCancelAtBattery).1 ∧
      Ev.subscribeCall STATUS_CHAR ∈ (runScript envCancelAtBattery).1 ∧
      Ev.sleepCall ∈ (runScript envCancelAtBattery).1 := by decide

/-- C7 amended: an external cancellation is never an unhandled fault — the
run terminates cleanly — and at every suspension point other than the
battery-level read it is honored: before a connection exists (scan, connect)
the run exits with no disconnect; once connected (discovery, any explore
read, either subscribe, the listen window) the session proceeds to exactly
one disconnect, skipping any remaining listen time.  Only a cancellation
delivered during the specialized battery read is swallowed by its bare
exception handler: the session then continues through both subscriptions and
the full listen window before disconnecting. -/
theorem c7_cancellation :
    (∀ env : BleEnv, env.scanRes = .exn .cancelled →
        (runScript env).2 = .clean ∧ (runScript env).1.count Ev.disconnectCall = 0) ∧
    (∀ (env : BleEnv) (devs : List Device) (d : Device),
        env.scanRes = .ok devs → findDevice devs = some d →
        env.connectRes = .exn .cancelled →
        (runScript env).2 = .clean ∧ (runScript env).1.count Ev.disconnectCall = 0) ∧
    (∀ (env : BleEnv) (devs : List Device) (d : Device),
        env.scanRes = .ok devs → findDevice devs = some d →
        env.connectRes = .ok true → env.servicesRes = .exn .cancelled →
        (runScript env).2 = .clean ∧ (runScript env).1.count Ev.disconnectCall = 1 ∧
          Ev.sleepCall ∉ (runScript env).1) ∧
    (∀ (env : BleEnv) (devs : List Device) (d : Device) (svcs : List GattService) (j : Nat),
        env.scanRes = .ok devs → findDevice devs = some d →
        env.connectRes = .ok true → env.servicesRes = .ok svcs →
        (∀ i, i < j → (env.readRes i).isCancelled = false) →
        (env.readRes j).isCancelled = true →
        j < (readableOf svcs).length →
        (runScript env).2 = .clean ∧ (runScript env).1.count Ev.disconnectCall = 1 ∧
          Ev.sleepCall ∉ (runScript env).1) ∧
    (∀ (env : BleEnv) (devs : List Device) (d : Device) (svcs : List GattService),
        env.scanRes = .ok devs → findDevice devs = some d →
        env.connectRes = .ok true → env.servicesRes = .ok svcs →
        noCancel env.readRes → env.dataSubRes = .exn .cancelled →
        (runScript env).2 = .clean ∧ (runScript env).1.count Ev.disconnectCall = 1 ∧
          Ev.sleepCall ∉ (runScript env).1) ∧
    (∀ (env : BleEnv) (devs : List Device) (d : Device) (svcs : List GattService),
        env.scanRes = .ok devs → findDevice devs = some d →
        env.connectRes = .ok true → env.servicesRes = .ok svcs →
        noCancel env.readRes → env.dataSubRes.isCancelled = false →
        env.statusSubRes = .exn .cancelled →
        (runScript env).2 = .clean ∧ (runScript env).1.count Ev.disconnectCall = 1 ∧
          Ev.sleepCall ∉ (runScript env).1) ∧
    (∀ (env : BleEnv) (devs : List Device) (d : Device) (svcs : List GattService),
        env.scanRes = .ok devs → findDevice devs = some d →
        env.connectRes = .ok true → env.servicesRes = .ok svcs →
        noCancel env.readRes → env.dataSubRes.isCancelled = false →
        env.statusSubRes.isCancelled = false →
        env.sleepRes = .exn .cancelled →
        (runScript env).2 = .clean ∧ (runScript env).1.count Ev.disconnectCall = 1) ∧
    (∀ (env : BleEnv) (devs : List Device) (d : Device) (svcs : List GattService),
        env.scanRes = .ok devs → findDevice devs = some d →
        env.connectRes = .ok true → env.servicesRes = .ok svcs →
        noCancel env.readRes → env.batteryRes = .exn .cancelled →
        env.dataSubRes.isCancelled = false →
        env.statusSubRes.isCancelled = false →
        Ev.subscribeCall DATA_CHAR ∈ (runScript env).1 ∧
          Ev.subscribeCall STATUS_CHAR ∈ (runScript env).1 ∧
          Ev.sleepCall ∈ (runScript env).1 ∧
          (runScript env).1.count Ev.disconnectCall = 1) := by
  refine ⟨?_, ?_, ?_, ?_, ?_, ?_, ?_, ?_⟩
  · intro env hscan
    have hm := mainF_scan_exn hscan
    refine ⟨runScript_snd_of_cancel (by rw [hm]), ?_⟩
    rw [runScript_fst, hm]; simp
  · intro env devs d hscan hfind hconn
    have hm := mainF_connect_exn hscan hfind hconn
    refine ⟨runScript_snd_of_cancel (by rw [hm]), ?_⟩
    rw [runScript_fst, hm]; simp [List.count_cons]
  · intro env devs d hscan hfind hconn hsvc
    have hw := withBody_services_exn hsvc
    have hm := mainF_shape hscan hfind hconn
    rw [hw] at hm
    dsimp only at hm
    refine ⟨runScript_snd_of_cancel (by rw [hm]),
      (runScript_disc_once hscan hfind hconn).1, ?_⟩
    rw [runScript_fst, hm]; simp
  · intro env devs d svcs j hscan hfind hconn hsvc hlt hc hj
    have hcn : (exploreServices env.readRes 0 svcs).2.2 = some .cancelled := by
      rw [exploreServices_eq]
      refine exploreChars_cancelAt (flatChars svcs) 0 j ?_ ?_ ?_
      · intro i hi; simpa using hlt i hi
      · simpa using hc
      · simpa [readableOf] using hj
    have hw := withBody_explore_cancel hsvc hcn
    have hm := mainF_shape hscan hfind hconn
    rw [hw] at hm
    dsimp only at hm
    refine ⟨runScript_snd_of_cancel (by rw [hm]),
      (runScript_disc_once hscan hfind hconn).1, ?_⟩
    rw [runScript_fst, hm]
    dsimp only
    refine not_mem_append2 (not_mem_append2 (pre_not_sleep _ _ _) ?_) disc_not_sleep
    rw [exploreServices_eq]
    exact exploreChars_not_mem rfl
  · intro env devs d svcs hscan hfind hconn hsvc hnc hd
    have hw := withBody_dataSub_cancel hsvc hnc hd
    have hm := mainF_shape hscan hfind hconn
    rw [hw] at hm
    dsimp only at hm
    refine ⟨runScript_snd_of_cancel (by rw [hm]),
      (runScript_disc_once hscan hfind hconn).1, ?_⟩
    rw [runScript_fst, hm]
    dsimp only
    refine not_mem_append2 (not_mem_append2 (pre_not_sleep _ _ _)
      (not_mem_append2 (not_mem_append2 (expTrace_not_mem rfl)
        (batteryStep_not_sleep _)) (by simp))) disc_not_sleep
  · intro env devs d svcs hscan hfind hconn hsvc hnc h1 hd
    have hw := withBody_statusSub_cancel hsvc hnc h1 hd
    have hm := mainF_shape hscan hfind hconn
    rw [hw] at hm
    dsimp only at hm
    refine ⟨runScript_snd_of_cancel (by rw [hm]),
      (runScript_disc_once hscan hfind hconn).1, ?_⟩
    rw [runScript_fst, hm]
    dsimp only
    refine not_mem_append2 (not_mem_append2 (pre_not_sleep _ _ _)
      (not_mem_append2 (not_mem_append2 (not_mem_append2 (expTrace_not_mem rfl)
        (batteryStep_not_sleep _)) (subStep_not_sleep _ _)) (by simp))) disc_not_sleep
  · intro env devs d svcs hscan hfind hconn hsvc hnc h1 h2 hsl
    have hw := withBody_shape hsvc hnc h1 h2
    have h5 : sleepStep env.sleepRes = ([Ev.sleepCall], none) := by rw [hsl]; rfl
    rw [h5] at hw
    have hm := mainF_shape hscan hfind hconn
    rw [hw] at hm
    dsimp only at hm
    exact ⟨runScript_snd_of_none (by rw [hm]),
      (runScript_disc_once hscan hfind hconn).1⟩
  · intro env devs d svcs hscan hfind hconn hsvc hnc hbat h1 h2
    obtain ⟨m1, m2, m3⟩ := runScript_listening hscan hfind hconn hsvc hnc h1 h2
    exact ⟨m1, m2, m3, (runScript_disc_once hscan hfind hconn).1⟩

/-- Environment in which the cancellation is delivered at the data-subscribe
suspension point. -/
def envCancelAtDataSub : BleEnv :=
  ⟨.ok [novaDev], .ok true, .ok [], fun _ => .ok [], .ok [90],
   .exn .cancelled, .ok (), .ok ()⟩

/-- C7 witness: cancellation at the data-subscribe point is honored — clean
exit, one disconnect, no listen window. -/
theorem c7_cancellation_witness :
    (runScript envCancelAtDataSub).2 = .clean ∧
      (runScript envCancelAtDataSub).1.count Ev.disconnectCall = 1 ∧
      Ev.sleepCall ∉ (runScript envCancelAtDataSub).1 :=
  c7_cancellation.2.2.2.2.1 envCancelAtDataSub [novaDev] novaDev []
    rfl (by decide) rfl rfl (fun i => rfl) rfl

/-- C8: the scan phase is one bounded `discover` call followed by a pure
filter: it completes exactly at the timeout (hence within `timeout + ε` for
every slack ε), returns `none` — NotFound — whenever no matching
advertisement arrives within the window, and a returned device always
matches the filter. -/
theorem c8_bounded_scan (filt : String) (timeout : Nat) (ads : List (Nat × Device))
    (eps : Nat) :
    ((∀ a ∈ ads, a.1 ≤ timeout → matchesName filt a.2 = false) →
        (scanTimed filt timeout ads).1 = none) ∧
    (scanTimed filt timeout ads).2 ≤ timeout + eps ∧
    (∀ d, (scanTimed filt timeout ads).1 = some d → matchesName filt d = true) := by
  refine ⟨?_, ?_, ?_⟩
  · intro h
    dsimp only [scanTimed, discover, scanFind]
    rw [List.find?_eq_none]
    intro x hx
    rw [List.mem_map] at hx
    obtain ⟨a, ha, rfl⟩ := hx
    rw [List.mem_filter] at ha
    have := h a ha.1 (by simpa using ha.2)
    simp [this]
  · dsimp only [scanTimed, discover]
    exact Nat.le_add_right timeout eps
  · intro d h
    dsimp only [scanTimed, discover, scanFind] at h
    exact List.find?_some h

/-- C8 witness: a stream whose only advertisement does not match. -/
theorem c8_bounded_scan_witness :
    (scanTimed "Lumenate" 10 [(3, otherDev)]).1 = none ∧
      (scanTimed "Lumenate" 10 [(3, otherDev)]).2 ≤ 10 + 1 :=
  ⟨(c8_bounded_scan "Lumenate" 10 [(3, otherDev)] 1).1 (by decide),
   (c8_bounded_scan "Lumenate" 10 [(3, otherDev)] 1).2.1⟩

/-- C9: an advertisement without an advertised name never matches any filter
— the empty filter included — and the scanner never returns a nameless
device. -/
theorem c9_nameless_never_found :
    (∀ (filt addr : String) (r : Option Int), matchesName filt ⟨none, addr, r⟩ = false) ∧
    (∀ (filt : String) (devs : List Device) (d : Device),
        scanFind filt devs = some d → d.name ≠ none) := by
  refine ⟨fun filt addr r => rfl, ?_⟩
  intro filt devs d h hname
  have hmatch := List.find?_some h
  cases d with
  | mk nm ad rs =>
    obtain rfl : nm = none := hname
    simp [matchesName] at hmatch

/-- C9 witness: the nameless rejection at the empty filter, and a found
device that indeed has a name. -/
theorem c9_nameless_never_found_witness :
    matchesName "" ⟨none, "XX", none⟩ = false ∧ novaDev.name ≠ none :=
  ⟨c9_nameless_never_found.1 "" "XX" none,
   c9_nameless_never_found.2 "Lumenate" [novaDev] novaDev (by decide)⟩

/-- C10: when the topology exposes the battery-level characteristic with the
read capability exactly once, an uninterrupted session issues the read call
for it twice — once in the generic explore pass over all readable
characteristics and once more in the specialized battery-percentage step. -/
theorem c10_battery_read_twice {env : BleEnv} {devs : List Device} {d : Device}
    {svcs : List GattService}
    (hscan : env.scanRes = .ok devs) (hfind : findDevice devs = some d)
    (hconn : env.connectRes = .ok true) (hsvc : env.servicesRes = .ok svcs)
    (hnc : noCancel env.readRes)
    (h1 : env.dataSubRes.isCancelled = false)
    (h2 : env.statusSubRes.isCancelled = false)
    (hbat : ((readableOf svcs).map (fun c => c.uuid)).count BATTERY_CHAR = 1) :
    (runScript env).1.count (Ev.readCall BATTERY_CHAR) = 2 := by
  have hb2 : (((flatChars svcs).filter canRead).map (fun c => c.uuid)).count BATTERY_CHAR = 1 := by
    simpa [readableOf] using hbat
  rw [runScript_fst, mainF_shape hscan hfind hconn, withBody_shape hsvc hnc h1 h2]
  dsimp only
  simp only [List.count_append]
  rw [expTrace_count_read hnc BATTERY_CHAR (flatChars svcs) 0, hb2,
    batteryStep_count, subStep_count_read, subStep_count_read, sleepStep_fst]
  simp [List.count_cons]

/-- C10 witness: the nominal environment's topology carries the read-capable
battery characteristic once, and its trace reads it twice. -/
theorem c10_battery_read_twice_witness :
    (runScript envNominal).1.count (Ev.readCall BATTERY_CHAR) = 2 :=
  @c10_battery_read_twice envNominal [novaDev] novaDev nominalSvcs
    rfl (by decide) rfl rfl (fun i => rfl) rfl rfl (by decide)

end Nova
